import Mathlib

/-!
Shallow embedding of the qrscan browser application (src/App.tsx,
src/components/ScreenScanner.tsx, src/components/DropZone.tsx,
src/utils/qrUtils.ts, the Gemini service and the shared type
declarations).  React state is modelled as an explicit record; each
event handler becomes a function from state to state paired with the
list of external effects it performs (stopping media-stream tracks,
showing alerts, scheduling the asynchronous analysis continuation).
Browser-provided and remote facilities (jsQR, getDisplayMedia, the
Gemini endpoint, JSON.parse, image loading) are environment parameters.
-/

namespace QRScan

/-- Corner point reported by the decoder (types declaration file). -/
structure Point where
  x : Int
  y : Int
deriving Repr, DecidableEq

/-- Location block of a decoded QR code (types declaration file). -/
structure QRLocation where
  topRightCorner : Point
  topLeftCorner : Point
  bottomRightCorner : Point
  bottomLeftCorner : Point
deriving Repr, DecidableEq

/-- Decoded QR code as reported by the jsQR library (types declaration
file).  The dynamically typed `chunks` array is carried by no claim and
is omitted. -/
structure QRCode where
  binaryData : List Nat
  data : String
  location : QRLocation
deriving Repr, DecidableEq

/-- Raw pixel frame handed to the decoder: `ImageData` with its
`data` buffer (bytes), `width` and `height`. -/
structure ImageData where
  data : List Nat
  width : Nat
  height : Nat
deriving Repr, DecidableEq

/-- Runtime value produced by the analysis service.  The TypeScript
declaration restricts `safety` and `category` to string-literal unions,
but the runtime value comes from an unvalidated `JSON.parse` cast, so
the fields are modelled as plain strings and the declared unions as the
predicate `isDeclaredAnalysisResult` below. -/
structure AnalysisResult where
  summary : String
  safety : String
  category : String
deriving Repr, DecidableEq

/-- The safety union of the declared `AnalysisResult` type. -/
def safetyValues : List String := ["safe", "suspicious", "unknown", "info"]

/-- The category union of the declared `AnalysisResult` type. -/
def categoryValues : List String := ["url", "text", "wifi", "other"]

/-- A runtime analysis record inhabits the declared TypeScript type. -/
def isDeclaredAnalysisResult (r : AnalysisResult) : Prop :=
  r.safety ∈ safetyValues ∧ r.category ∈ categoryValues

instance (r : AnalysisResult) : Decidable (isDeclaredAnalysisResult r) := by
  unfold isDeclaredAnalysisResult; infer_instance

/-- A display-media stream: its tracks, identified by ids.  The capture
request asks for video only, so every track is a video track. -/
structure MediaStream where
  tracks : List Nat
deriving Repr, DecidableEq

/-- The decode library: the global `window.jsQR` slot, absent when the
CDN script has not loaded. -/
def JsQRSlot : Type := Option (List Nat → Nat → Nat → Option QRCode)

/-- `scanImageData` (src/utils/qrUtils.ts): delegate to `window.jsQR`
when it is loaded, return null otherwise. -/
def scanImageData (jsQR : JsQRSlot) (imageData : ImageData) : Option QRCode :=
  match jsQR with
  | some f => f imageData.data imageData.width imageData.height
  | none => none

/-- Environment of one `readQRFromImage` run: whether the image element
fires load or error, whether a 2d canvas context is available, and the
outcome of `getImageData` (which may throw). -/
structure ImageLoadEnv where
  loadOk : Bool
  ctxAvailable : Bool
  imagePixels : Except String ImageData

/-- `readQRFromImage` (src/utils/qrUtils.ts): rejects on image load
failure, missing canvas context or a `getImageData` throw; otherwise
resolves with the decoder result, null standing for decode-not-found. -/
def readQRFromImage (env : ImageLoadEnv) (jsQR : JsQRSlot) :
    Except String (Option QRCode) :=
  if env.loadOk = false then Except.error "Failed to load image"
  else if env.ctxAvailable = false then Except.error "Could not get canvas context"
  else
    match env.imagePixels with
    | Except.error e => Except.error e
    | Except.ok img => Except.ok (scanImageData jsQR img)

/-- Environment of the Gemini service: the configured API key, the
remote call (rejection, or a response whose `text` may be absent) and
`JSON.parse` on the response body (none when parsing throws). -/
structure GeminiEnv where
  apiKey : Option String
  generate : String → Except String (Option String)
  parseJson : String → Option AnalysisResult

/-- Prompt built by `analyzeQRContent` around the decoded content. -/
def analysisPrompt (content : String) : String :=
  "以下のQRコードからデコードされたコンテンツを分析してください: \"" ++ content ++
  "\"。\n\n以下の構造を持つJSONレスポンスを提供してください:\n" ++
  "1. summary: これが何であるかの簡単な説明（例：「Googleマップへのリンク」、「WiFi設定文字列」、「プレーンテキストメッセージ」）。日本語で記述してください。\n" ++
  "2. safety: 安全性の評価 (\x27safe\x27, \x27suspicious\x27, \x27unknown\x27, \x27info\x27)。プレーンテキストの場合は \x27info\x27。\n" ++
  "3. category: コンテンツの種類 (\x27url\x27, \x27text\x27, \x27wifi\x27, \x27other\x27)。\n"

/-- Record returned when no API key is configured. -/
def noApiKeyResult : AnalysisResult :=
  { summary := "APIキーが見つかりません。コンテンツを分析できません。"
    safety := "unknown", category := "other" }

/-- Placeholder record returned when analysis fails. -/
def unavailableResult : AnalysisResult :=
  { summary := "AI分析は現在利用できません。"
    safety := "unknown", category := "other" }

/-- The try-block of `analyzeQRContent`: the remote call, the check
that a response text exists, and the `JSON.parse` cast.  An `error`
value is a throw that the surrounding catch will absorb. -/
def analyzeTry (env : GeminiEnv) (content : String) :
    Except String AnalysisResult :=
  match env.generate (analysisPrompt content) with
  | Except.error e => Except.error e
  | Except.ok none => Except.error "No response from Gemini"
  | Except.ok (some t) =>
    match env.parseJson t with
    | none => Except.error "JSON parse threw"
    | some r => Except.ok r

/-- `analyzeQRContent` (Gemini service): early return on a missing API
key, otherwise the try-block with every throw caught and mapped to the
unavailable placeholder.  Totality of this function is the resolution
guarantee: no path rejects. -/
def analyzeQRContent (env : GeminiEnv) (content : String) : AnalysisResult :=
  match env.apiKey with
  | none => noApiKeyResult
  | some _ =>
    match analyzeTry env content with
    | Except.ok r => r
    | Except.error _ => unavailableResult

/-- A file as seen by the DropZone drop handler: its MIME type. -/
structure DroppedFile where
  mime : String
deriving Repr, DecidableEq

/-- External effects performed by the App and DropZone handlers. -/
inductive Effect where
  | stopTrack (id : Nat)
  | scheduleAnalysis (content : String)
  | alert (message : String)
  | fileSelected (file : DroppedFile)
deriving Repr, DecidableEq

/-- The React state of `App` (src/App.tsx). -/
structure AppState where
  qrData : Option String
  analysis : Option AnalysisResult
  isProcessing : Bool
  isScreenScanning : Bool
  activeStream : Option MediaStream
  error : Option String
  isDraggingCamera : Bool
deriving Repr, DecidableEq

/-- The initial App state: every `useState` initial value. -/
def initialAppState : AppState :=
  { qrData := none, analysis := none, isProcessing := false,
    isScreenScanning := false, activeStream := none, error := none,
    isDraggingCamera := false }

/-- Localized message set when no QR code is found in an image. -/
def qrNotFoundMessage : String :=
  "QRコードが検出されませんでした。画像が鮮明で、有効なQRコードが含まれていることを確認してください。"

/-- Localized message set when image processing fails. -/
def processingFailedMessage : String :=
  "画像の処理に失敗しました。もう一度お試しください。"

/-- Localized message set when display capture is unsupported. -/
def unsupportedMessage : String :=
  "このブラウザは画面共有をサポートしていないか、セキュアなコンテキスト(HTTPS)で実行されていません。"

/-- Localized message set when starting screen capture fails. -/
def captureFailedMessage : String :=
  "画面キャプチャを開始できませんでした。権限を確認するか、別のブラウザをお試しください。"

/-- Localized alert shown for a dropped non-image file. -/
def imageOnlyAlertMessage : String := "画像ファイルを選択してください。"

/-- `handleStopScreenScan` (src/App.tsx): when a stream is active, stop
every one of its tracks and clear `activeStream`; always clear
`isScreenScanning`. -/
def handleStopScreenScan (s : AppState) : AppState × List Effect :=
  match s.activeStream with
  | some stream =>
    ({ s with activeStream := none, isScreenScanning := false },
      stream.tracks.map Effect.stopTrack)
  | none => ({ s with isScreenScanning := false }, [])

/-- `processQRData` (src/App.tsx): synchronously publish the decoded
payload, leave processing, close the scanner (stopping the stream),
clear the error, and schedule the asynchronous analysis whose
continuation will later store the result. -/
def processQRData (data : String) (s : AppState) : AppState × List Effect :=
  let s1 : AppState := { s with qrData := some data, isProcessing := false }
  let p := handleStopScreenScan s1
  ({ p.1 with error := none }, p.2 ++ [Effect.scheduleAnalysis data])

/-- The deferred continuation of the analysis promise:
`result => setAnalysis(result)`. -/
def applyAnalysisResult (r : AnalysisResult) (s : AppState) : AppState :=
  { s with analysis := some r }

/-- `handleFileSelected` (src/App.tsx), parameterised by the settled
outcome of `readQRFromImage`. -/
def handleFileSelected (readResult : Except String (Option QRCode))
    (s : AppState) : AppState × List Effect :=
  let s1 : AppState :=
    { s with isProcessing := true, error := none, qrData := none, analysis := none }
  match readResult with
  | Except.ok (some qr) => processQRData qr.data s1
  | Except.ok none =>
    ({ s1 with error := some qrNotFoundMessage, isProcessing := false }, [])
  | Except.error _ =>
    ({ s1 with error := some processingFailedMessage, isProcessing := false }, [])

/-- `handleReset` (src/App.tsx). -/
def handleReset (s : AppState) : AppState × List Effect :=
  ({ s with qrData := none, analysis := none, error := none, isProcessing := false }, [])

/-- Outcome of the `getDisplayMedia` capability in one run of
`handleStartScreenScan`: the API may be absent, resolve with a stream,
or reject with a named error. -/
inductive DisplayMediaOutcome where
  | apiUnavailable
  | resolved (stream : MediaStream)
  | rejected (errName : String)
deriving Repr, DecidableEq

/-- `handleStartScreenScan` (src/App.tsx): clear the error, bail out
with a message if capture is unsupported, install the stream on
success; on rejection, return silently for NotAllowedError and set the
failure message otherwise. -/
def handleStartScreenScan (outcome : DisplayMediaOutcome) (s : AppState) :
    AppState × List Effect :=
  let s1 : AppState := { s with error := none }
  match outcome with
  | DisplayMediaOutcome.apiUnavailable =>
    ({ s1 with error := some unsupportedMessage }, [])
  | DisplayMediaOutcome.resolved stream =>
    ({ s1 with activeStream := some stream, isScreenScanning := true }, [])
  | DisplayMediaOutcome.rejected errName =>
    if errName = "NotAllowedError" then (s1, [])
    else ({ s1 with error := some captureFailedMessage }, [])

/-- `handleCameraDragStart` (src/App.tsx). -/
def handleCameraDragStart (s : AppState) : AppState × List Effect :=
  ({ s with isDraggingCamera := true }, [])

/-- `handleCameraDragEnd` (src/App.tsx). -/
def handleCameraDragEnd (s : AppState) : AppState × List Effect :=
  ({ s with isDraggingCamera := false }, [])

/-- `handleCameraDrop` (src/App.tsx): start the scan when the drag
payload is the camera trigger; always clear the drag flag. -/
def handleCameraDrop (payload : String) (outcome : DisplayMediaOutcome)
    (s : AppState) : AppState × List Effect :=
  if payload = "camera-trigger" then
    let p := handleStartScreenScan outcome s
    ({ p.1 with isDraggingCamera := false }, p.2)
  else ({ s with isDraggingCamera := false }, [])

/-- The `ended` handler that ScreenScanner installs on the video track
simply invokes the `onCancel` prop. -/
def screenScannerOnTrackEnded (onCancel : AppState → AppState × List Effect) :
    AppState → AppState × List Effect :=
  onCancel

/-- App wires the scanner's `onCancel` prop to `handleStopScreenScan`. -/
def appScannerOnCancel : AppState → AppState × List Effect :=
  handleStopScreenScan

/-- What the main area of App renders: the intake surface when no
payload is decoded, otherwise the ResultCard with the current
analysis. -/
inductive MainView where
  | intake
  | result (rawContent : String) (analysis : Option AnalysisResult)
deriving Repr, DecidableEq

/-- Render function of App's main area.  The JSX guard is the JS
truthiness test `!qrData`, which holds both for null and for the empty
string: in either case the intake surface renders; only a non-empty
decoded payload renders the ResultCard. -/
def mainView (s : AppState) : MainView :=
  match s.qrData with
  | none => MainView.intake
  | some d => if d = "" then MainView.intake else MainView.result d s.analysis

/-- The analysis section of the ResultCard: in-progress spinner while
`analysis` is null, the summary once it is populated. -/
inductive AnalysisSection where
  | analyzing
  | shown (a : AnalysisResult)
deriving Repr, DecidableEq

/-- Render function of the ResultCard analysis section. -/
def resultCardAnalysisSection (analysis : Option AnalysisResult) : AnalysisSection :=
  match analysis with
  | none => AnalysisSection.analyzing
  | some a => AnalysisSection.shown a

/-- DropZone local state. -/
structure DropState where
  isDragging : Bool
deriving Repr, DecidableEq

/-- Kernel-computable counterpart of `String.startsWith` (which is
defined by well-founded recursion over byte positions and therefore
does not evaluate inside proofs): a string starts with `pre` exactly
when the character list of `pre` is a prefix of its character list. -/
def strStartsWith (s pre : String) : Bool :=
  pre.data.isPrefixOf s.data

/-- `handleDrop` (src/components/DropZone.tsx): always clear the drag
highlight; with a non-empty file list, forward the first file when its
MIME type starts with image/, otherwise alert. -/
def handleDrop (files : List DroppedFile) (s : DropState) :
    DropState × List Effect :=
  let s1 : DropState := { s with isDragging := false }
  match files with
  | [] => (s1, [])
  | f :: _ =>
    if strStartsWith f.mime "image/" then (s1, [Effect.fileSelected f])
    else (s1, [Effect.alert imageOnlyAlertMessage])

/-- One scheduled animation frame as the scan loop sees it: the video
may not be ready (readyState below HAVE_CURRENT_DATA, no 2d context or
a zero-sized canvas), `getImageData` may throw (caught and logged), or
a frame is captured for a decode attempt. -/
inductive FrameState where
  | notReady
  | captureFailed
  | captured (imageData : ImageData)
deriving Repr, DecidableEq

/-- Observable actions of the scan-loop callback. -/
inductive ScanEffect where
  | decodeAttempt
  | cancelPendingFrame
  | callOnScan (data : String)
  | scheduleNextFrame
deriving Repr, DecidableEq

/-- One execution of the `scan` callback (src/components/
ScreenScanner.tsx): at most one `scanImageData` call; on a decoded
code, cancel the pending frame, call `onScan` and stop; otherwise
schedule the next animation frame. -/
def scanFrame (jsQR : JsQRSlot) : FrameState → List ScanEffect × Option String
  | FrameState.notReady => ([ScanEffect.scheduleNextFrame], none)
  | FrameState.captureFailed => ([ScanEffect.scheduleNextFrame], none)
  | FrameState.captured img =>
    match scanImageData jsQR img with
    | some c =>
      ([ScanEffect.decodeAttempt, ScanEffect.cancelPendingFrame,
        ScanEffect.callOnScan c.data], some c.data)
    | none => ([ScanEffect.decodeAttempt, ScanEffect.scheduleNextFrame], none)

/-- The scan loop run over a sequence of animation frames: each frame
executes the callback once and the loop stops at the first decode. -/
def runScanLoop (jsQR : JsQRSlot) : List FrameState → List ScanEffect
  | [] => []
  | f :: rest =>
    let p := scanFrame jsQR f
    match p.2 with
    | some _ => p.1
    | none => p.1 ++ runScanLoop jsQR rest

/-- The scan loop when cancellation arrives before the (k+1)-th
scheduled attempt: the pending callback is removed, so frames beyond
the first k never run. -/
def runScanLoopCancelled (jsQR : JsQRSlot) : Nat → List FrameState → List ScanEffect
  | 0, _ => []
  | _ + 1, [] => []
  | k + 1, f :: rest =>
    let p := scanFrame jsQR f
    match p.2 with
    | some _ => p.1
    | none => p.1 ++ runScanLoopCancelled jsQR k rest

/-- C10: `handleStopScreenScan` is idempotent on the session state:
after one call `activeStream` is null and `isScreenScanning` is false
whatever the prior state, and a second call from the reached state
changes nothing and stops no track (the track-stopping branch runs only
when `activeStream` is non-null). -/
theorem handleStopScreenScan_idempotent (s : AppState) :
    (handleStopScreenScan s).1.activeStream = none
    ∧ (handleStopScreenScan s).1.isScreenScanning = false
    ∧ handleStopScreenScan (handleStopScreenScan s).1
        = ((handleStopScreenScan s).1, []) := by
  cases h : s.activeStream <;> simp [handleStopScreenScan, h]

/-- C4: when `getDisplayMedia` rejects with NotAllowedError, the run of
`handleStartScreenScan` is a silent cancellation: the whole state is
returned with `error` null (so still null when it was null),
`isScreenScanning` and `activeStream` untouched, and no effect is
performed. -/
theorem notAllowedError_is_silent_cancellation (s : AppState) :
    handleStartScreenScan (DisplayMediaOutcome.rejected "NotAllowedError") s
      = ({ s with error := none }, [])
    ∧ (handleStartScreenScan (DisplayMediaOutcome.rejected "NotAllowedError") s).1.error
        = none
    ∧ (handleStartScreenScan (DisplayMediaOutcome.rejected "NotAllowedError") s).1.isScreenScanning
        = s.isScreenScanning
    ∧ (handleStartScreenScan (DisplayMediaOutcome.rejected "NotAllowedError") s).1.activeStream
        = s.activeStream := by
  simp [handleStartScreenScan]

/-- C5: both outcomes of file intake are non-fatal and land back in the
idle intake state with a localized message: a null decode result sets
the not-found message, a rejection sets the processing-failure message;
in both cases `isProcessing` is false, `qrData` is null and the main
view is the intake surface, with no external effect.  The rejection
cases of `readQRFromImage` (image load failure, missing canvas context,
a throwing `getImageData`) and its null resolution are derived from the
source embedding. -/
theorem fileIntake_failures_return_to_idle (s : AppState) (e : String)
    (ctxA : Bool) (gid : Except String ImageData) (jsQR : JsQRSlot)
    (img : ImageData) :
    (handleFileSelected (Except.ok none) s
      = ({ s with
            qrData := none, analysis := none, isProcessing := false,
            error := some qrNotFoundMessage }, []))
    ∧ mainView (handleFileSelected (Except.ok none) s).1 = MainView.intake
    ∧ (handleFileSelected (Except.error e) s
      = ({ s with
            qrData := none, analysis := none, isProcessing := false,
            error := some processingFailedMessage }, []))
    ∧ mainView (handleFileSelected (Except.error e) s).1 = MainView.intake
    ∧ readQRFromImage ⟨false, ctxA, gid⟩ jsQR = Except.error "Failed to load image"
    ∧ readQRFromImage ⟨true, false, gid⟩ jsQR = Except.error "Could not get canvas context"
    ∧ readQRFromImage ⟨true, true, Except.error e⟩ jsQR = Except.error e
    ∧ readQRFromImage ⟨true, true, Except.ok img⟩ jsQR
        = Except.ok (scanImageData jsQR img) := by
  refine ⟨rfl, rfl, rfl, rfl, rfl, rfl, rfl, rfl⟩

/-- C6 counterexample: for the empty decoded string the result view
does not render: `processQRData ""` sets `qrData` to the empty string,
but the JS-falsy render guard `!qrData` keeps the intake surface on
screen, so the claimed ResultCard render fails at this decoded
string. -/
theorem resultView_empty_payload_counterexample :
    (processQRData "" initialAppState).1.qrData = some ""
    ∧ mainView (processQRData "" initialAppState).1 = MainView.intake
    ∧ mainView (processQRData "" initialAppState).1
        ≠ MainView.result "" none := by
  refine ⟨rfl, rfl, ?_⟩
  decide

/-- C6 amended: for every non-empty decoded string the result view
renders before the analysis resolves: the synchronous part of
`processQRData` publishes the payload while `analysis` is still null,
so the main view is the ResultCard in its analysis-pending (spinner)
branch; the analysis value only appears when the deferred continuation,
scheduled as the final effect, later runs.  For the empty decoded
string `qrData` is still set and the analysis still deferred, but the
JS-falsy guard keeps the intake surface rendered. -/
theorem resultView_renders_before_analysis (d : String) (s : AppState)
    (r : AnalysisResult) (hd : d ≠ "") :
    (processQRData d { s with analysis := none }).1.qrData = some d
    ∧ (processQRData d { s with analysis := none }).1.analysis = none
    ∧ mainView (processQRData d { s with analysis := none }).1
        = MainView.result d none
    ∧ resultCardAnalysisSection (processQRData d { s with analysis := none }).1.analysis
        = AnalysisSection.analyzing
    ∧ (∃ stopEffs, (processQRData d { s with analysis := none }).2
        = stopEffs ++ [Effect.scheduleAnalysis d])
    ∧ (applyAnalysisResult r (processQRData d { s with analysis := none }).1).analysis
        = some r := by
  cases h : s.activeStream <;>
    simp [processQRData, handleStopScreenScan, applyAnalysisResult, mainView,
      resultCardAnalysisSection, h, hd]

theorem resultView_renders_witness :
    mainView (processQRData "https://example.com"
        { initialAppState with analysis := none }).1
      = MainView.result "https://example.com" none := by
  exact (resultView_renders_before_analysis "https://example.com" initialAppState
    unavailableResult (by decide)).2.2.1

/-- C7: `scanImageData` is a pure wrapper over the external decode
library: with `window.jsQR` loaded it returns exactly
`jsQR(imageData.data, imageData.width, imageData.height)`, and with the
library absent it returns null instead of throwing. -/
theorem scanImageData_pure_wrapper
    (f : List Nat → Nat → Nat → Option QRCode) (img : ImageData) :
    scanImageData (some f) img = f img.data img.width img.height
    ∧ scanImageData (none : JsQRSlot) img = none :=
  ⟨rfl, rfl⟩

/-- C1: the capture stream is released in each terminating case — the
user cancel (`handleStopScreenScan`), a successful decode
(`processQRData`), and the browser's ended event (whose handler is the
`onCancel` prop, wired to `handleStopScreenScan`): every track is
stopped and `activeStream` is set back to null.  No other operation
stops a track: `handleReset`, every path of `handleStartScreenScan`,
the failing paths of `handleFileSelected` and the camera drag handlers
perform no effect at all (the successful `handleFileSelected` path
routes through `processQRData`). -/
theorem stream_released_exactly_by_stop (s : AppState) (ts : List Nat)
    (d : String) (o : DisplayMediaOutcome) (r : String) :
    (handleStopScreenScan { s with activeStream := some ⟨ts⟩ }
      = ({ s with activeStream := none, isScreenScanning := false },
         ts.map Effect.stopTrack))
    ∧ ((processQRData d { s with activeStream := some ⟨ts⟩ }).1.activeStream = none
        ∧ (processQRData d { s with activeStream := some ⟨ts⟩ }).2
            = ts.map Effect.stopTrack ++ [Effect.scheduleAnalysis d])
    ∧ screenScannerOnTrackEnded appScannerOnCancel = handleStopScreenScan
    ∧ (handleReset s).2 = []
    ∧ (handleStartScreenScan o s).2 = []
    ∧ (handleFileSelected (Except.ok none) s).2 = []
    ∧ (handleFileSelected (Except.error r) s).2 = []
    ∧ (handleCameraDragStart s).2 = []
    ∧ (handleCameraDragEnd s).2 = []
    ∧ (handleCameraDrop r o s).2 = [] := by
  refine ⟨rfl, ⟨rfl, rfl⟩, rfl, rfl, ?_, rfl, rfl, rfl, rfl, ?_⟩
  · cases o <;> simp [handleStartScreenScan]
    next errName => by_cases h : errName = "NotAllowedError" <;> simp [h]
  · by_cases hp : r = "camera-trigger" <;>
      cases o <;> simp [handleCameraDrop, handleStartScreenScan, hp]
    next errName => by_cases h : errName = "NotAllowedError" <;> simp [h]

/-- C2: the scanning loop makes at most one decode attempt per
scheduled animation frame; it reschedules itself until a frame decodes,
at which point it cancels the pending animation frame, calls `onScan`
with the decoded data and schedules nothing further (frames after the
hit never run); and cancellation before the (k+1)-th scheduled attempt
truncates the run to the first k frames. -/
theorem scanLoop_one_attempt_until_found :
    (∀ (jsQR : JsQRSlot) (f : FrameState),
       ((scanFrame jsQR f).1).count ScanEffect.decodeAttempt ≤ 1)
    ∧ (∀ (jsQR : JsQRSlot) (pre : List FrameState) (img : ImageData)
         (c : QRCode) (post : List FrameState),
       (∀ f ∈ pre, (scanFrame jsQR f).2 = none) →
       scanImageData jsQR img = some c →
       runScanLoop jsQR (pre ++ FrameState.captured img :: post)
         = (pre.map fun f => (scanFrame jsQR f).1).flatten
           ++ [ScanEffect.decodeAttempt, ScanEffect.cancelPendingFrame,
               ScanEffect.callOnScan c.data])
    ∧ (∀ (jsQR : JsQRSlot) (k : Nat) (frames : List FrameState),
       runScanLoopCancelled jsQR k frames = runScanLoop jsQR (frames.take k)) := by
  refine ⟨?_, ?_, ?_⟩
  · intro jsQR f
    cases f with
    | notReady => simp [scanFrame]
    | captureFailed => simp [scanFrame]
    | captured img =>
      cases h : scanImageData jsQR img <;> simp [scanFrame, h, List.count_cons]
  · intro jsQR pre img c post hpre hscan
    induction pre with
    | nil => simp [runScanLoop, scanFrame, hscan]
    | cons f rest ih =>
      have hf : (scanFrame jsQR f).2 = none := hpre f (List.mem_cons_self f rest)
      have hrest : ∀ g ∈ rest, (scanFrame jsQR g).2 = none :=
        fun g hg => hpre g (List.mem_cons_of_mem f hg)
      simp only [List.cons_append, runScanLoop, hf, List.map_cons,
        List.flatten_cons, List.append_eq]
      rw [ih hrest, List.append_assoc]
  · intro jsQR k frames
    induction frames generalizing k with
    | nil => cases k <;> simp [runScanLoopCancelled, runScanLoop]
    | cons f rest ih =>
      cases k with
      | zero => simp [runScanLoopCancelled, runScanLoop]
      | succ k =>
        cases h : (scanFrame jsQR f).2 <;>
          simp [runScanLoopCancelled, runScanLoop, h, ih]

/-- Concrete decoder used by the scan-loop witness: decodes exactly the
pixel buffer [1]. -/
def witnessQRCode : QRCode :=
  ⟨[1], "hello", ⟨⟨1, 0⟩, ⟨0, 0⟩, ⟨1, 1⟩, ⟨0, 1⟩⟩⟩

/-- Concrete `window.jsQR` used by the scan-loop witness. -/
def witnessJsQR : JsQRSlot :=
  some fun d _ _ => if d = [1] then some witnessQRCode else none

theorem scanLoop_witness :
    runScanLoop witnessJsQR
        ([FrameState.notReady, FrameState.captured ⟨[0], 1, 1⟩]
          ++ FrameState.captured ⟨[1], 1, 1⟩ :: ([] : List FrameState))
      = [ScanEffect.scheduleNextFrame, ScanEffect.decodeAttempt,
         ScanEffect.scheduleNextFrame, ScanEffect.decodeAttempt,
         ScanEffect.cancelPendingFrame, ScanEffect.callOnScan "hello"] := by
  have h := scanLoop_one_attempt_until_found.2.1 witnessJsQR
    [FrameState.notReady, FrameState.captured ⟨[0], 1, 1⟩]
    ⟨[1], 1, 1⟩ witnessQRCode [] (by decide) (by decide)
  exact h.trans (by decide)

/-- C3: with an API key configured, every failure of the analysis call
— remote rejection, a response without text, or a throwing JSON parse —
resolves to the unavailable placeholder record rather than rejecting
(the embedding of `analyzeQRContent` is total); and this never blocks
display of the decoded payload, since `processQRData` publishes
`qrData` synchronously and untouched `analysis`, with the analysis
continuation only scheduled as a deferred effect. -/
theorem analysis_failure_degrades_to_placeholder (env : GeminiEnv)
    (content : String) (k : String) (hkey : env.apiKey = some k) :
    (∀ e, env.generate (analysisPrompt content) = Except.error e →
       analyzeQRContent env content = unavailableResult)
    ∧ (env.generate (analysisPrompt content) = Except.ok none →
       analyzeQRContent env content = unavailableResult)
    ∧ (∀ t, env.generate (analysisPrompt content) = Except.ok (some t) →
        env.parseJson t = none →
        analyzeQRContent env content = unavailableResult)
    ∧ (∀ d s, (processQRData d s).1.qrData = some d
        ∧ (processQRData d s).1.analysis = s.analysis
        ∧ ∃ stopEffs, (processQRData d s).2
            = stopEffs ++ [Effect.scheduleAnalysis d]) := by
  refine ⟨?_, ?_, ?_, ?_⟩
  · intro e hg; simp [analyzeQRContent, analyzeTry, hkey, hg]
  · intro hg; simp [analyzeQRContent, analyzeTry, hkey, hg]
  · intro t hg hp; simp [analyzeQRContent, analyzeTry, hkey, hg, hp]
  · intro d s
    cases h : s.activeStream <;>
      simp [processQRData, handleStopScreenScan, h]

/-- Gemini environment whose remote call always rejects. -/
def failingGeminiEnv : GeminiEnv :=
  ⟨some "key", fun _ => Except.error "network down", fun _ => none⟩

theorem analysis_failure_witness :
    analyzeQRContent failingGeminiEnv "WIFI:S:home;;" = unavailableResult := by
  exact (analysis_failure_degrades_to_placeholder failingGeminiEnv
    "WIFI:S:home;;" "key" rfl).1 "network down" rfl

/-- Remote body that parses to a record outside the declared unions:
the `JSON.parse ... as AnalysisResult` cast performs no runtime
validation. -/
def nonSchemaRemoteBody : String :=
  "\x7b\"summary\":\"Link\",\"safety\":\"evil\",\"category\":\"nope\"\x7d"

/-- Gemini environment whose remote endpoint answers with a body
violating the requested response schema. -/
def nonSchemaGeminiEnv : GeminiEnv :=
  ⟨some "key", fun _ => Except.ok (some nonSchemaRemoteBody),
   fun t => if t = nonSchemaRemoteBody
     then some ⟨"Link", "evil", "nope"⟩ else none⟩

/-- C8 counterexample: a remote text body whose parse succeeds but
whose safety and category fields lie outside the declared unions is
returned as-is by `analyzeQRContent`, so not every resolved value has
the stated shape. -/
theorem analysisResult_shape_counterexample :
    analyzeQRContent nonSchemaGeminiEnv "content" = ⟨"Link", "evil", "nope"⟩
    ∧ ¬ isDeclaredAnalysisResult (analyzeQRContent nonSchemaGeminiEnv "content") := by
  constructor
  · rfl
  · rw [show analyzeQRContent nonSchemaGeminiEnv "content"
        = (⟨"Link", "evil", "nope"⟩ : AnalysisResult) from rfl]
    decide

/-- C8 amended: every value `analyzeQRContent` resolves with is the
missing-key record, the unavailable placeholder, or exactly the parse
of the remote text body; the two placeholder records have the declared
shape, and whenever every parsed remote body conforms to the requested
response schema the resolved value has the declared shape. -/
theorem analysisResult_shape_amended (env : GeminiEnv) (content : String) :
    (analyzeQRContent env content = noApiKeyResult
     ∨ analyzeQRContent env content = unavailableResult
     ∨ ∃ t, env.generate (analysisPrompt content) = Except.ok (some t)
          ∧ env.parseJson t = some (analyzeQRContent env content))
    ∧ isDeclaredAnalysisResult noApiKeyResult
    ∧ isDeclaredAnalysisResult unavailableResult
    ∧ ((∀ t r, env.parseJson t = some r → isDeclaredAnalysisResult r) →
        isDeclaredAnalysisResult (analyzeQRContent env content)) := by
  have hmain : analyzeQRContent env content = noApiKeyResult
      ∨ analyzeQRContent env content = unavailableResult
      ∨ ∃ t, env.generate (analysisPrompt content) = Except.ok (some t)
           ∧ env.parseJson t = some (analyzeQRContent env content) := by
    cases hk : env.apiKey with
    | none => exact Or.inl (by simp [analyzeQRContent, hk])
    | some key =>
      cases hg : env.generate (analysisPrompt content) with
      | error e =>
        exact Or.inr (Or.inl (by simp [analyzeQRContent, analyzeTry, hk, hg]))
      | ok txt =>
        cases txt with
        | none =>
          exact Or.inr (Or.inl (by simp [analyzeQRContent, analyzeTry, hk, hg]))
        | some t =>
          cases hp : env.parseJson t with
          | none =>
            exact Or.inr (Or.inl (by simp [analyzeQRContent, analyzeTry, hk, hg, hp]))
          | some r =>
            refine Or.inr (Or.inr ⟨t, rfl, ?_⟩)
            simp [analyzeQRContent, analyzeTry, hk, hg, hp]
  refine ⟨hmain, by decide, by decide, ?_⟩
  intro hconf
  rcases hmain with h | h | ⟨t, _, hp⟩
  · rw [h]; decide
  · rw [h]; decide
  · exact hconf t _ hp

/-- Gemini environment whose parses always conform to the schema. -/
def conformingGeminiEnv : GeminiEnv :=
  ⟨some "key", fun _ => Except.ok (some "body"),
   fun _ => some ⟨"A URL", "safe", "url"⟩⟩

theorem analysisResult_shape_witness :
    isDeclaredAnalysisResult (analyzeQRContent conformingGeminiEnv "content") := by
  refine (analysisResult_shape_amended conformingGeminiEnv "content").2.2.2 ?_
  intro t r h
  have h2 : some (⟨"A URL", "safe", "url"⟩ : AnalysisResult) = some r := h
  cases h2
  decide

/-- C9 counterexample: a drop of a non-image file does change state —
`handleDrop` unconditionally clears the `isDragging` highlight — even
though the alert is shown; so the claim's frame condition fails when a
drag was in progress. -/
theorem dropZone_nonImage_counterexample :
    handleDrop [⟨"text/plain"⟩] ⟨true⟩
      = (⟨false⟩, [Effect.alert imageOnlyAlertMessage])
    ∧ (⟨false⟩ : DropState) ≠ (⟨true⟩ : DropState) := by
  constructor
  · decide
  · decide

/-- C9 amended: for a drop whose first file is not an image, the alert
is shown, `onFileSelected` is never invoked (so the application state
is untouched), and the only state change is the transient `isDragging`
drag-highlight being cleared to false, as happens on every drop. -/
theorem dropZone_nonImage_amended (s : DropState) (f : DroppedFile)
    (rest : List DroppedFile) (h : strStartsWith f.mime "image/" = false) :
    handleDrop (f :: rest) s
      = ({ s with isDragging := false }, [Effect.alert imageOnlyAlertMessage])
    ∧ ∀ g, Effect.fileSelected g ∉ (handleDrop (f :: rest) s).2 := by
  constructor
  · simp [handleDrop, h]
  · intro g
    simp [handleDrop, h]

theorem dropZone_nonImage_witness :
    handleDrop [(⟨"application/pdf"⟩ : DroppedFile)] ⟨false⟩
      = (⟨false⟩, [Effect.alert imageOnlyAlertMessage]) := by
  exact (dropZone_nonImage_amended ⟨false⟩ ⟨"application/pdf"⟩ [] (by decide)).1

end QRScan
